import Mathlib

/-!
Shallow embedding of the Scorify dns check plugin (src/main.go).

The plugin has one config type `Schema`, a `Validate` entry point that decodes
the config string with the key-tagged scorify schema decoder and checks field
constraints, and a `Run` entry point that decodes the config string with
standard encoding/json, builds a resolver whose dial step is overridden to
always dial the composed server:port address bounded by the context deadline,
dispatches on the record type to one lookup, normalizes the answers to a list
of strings, and scans that list for an exact match with the expected output.

Modelling choices:
  - A config string restricted to the five documented keys is modelled by
    `ConfigObj` (each key optionally present with its JSON type); `toFields`
    renders it as the ordered field list of the JSON object, over which the
    encoding/json decoder `jsonUnmarshal` is defined generically.
  - The network is modelled by `DnsAnswers`: the answers the DNS server would
    give for each lookup kind, plus the address and network the resolution
    layer itself would have chosen (which the dial override ignores).
  - A lookup first opens one connection through the dial override and, when
    that succeeds, yields the answers; `Run` returns its Go result together
    with the list of connections opened, so that absence of network I/O is the
    empty connection list.
  - Go `%q` formatting is modelled as plain double quoting, and `ip.String()`
    as the stored textual form of an address.
-/

namespace Dns

/-- A JSON value of the two types the config fields use. -/
inductive JVal where
  | str : String → JVal
  | num : Int → JVal
deriving DecidableEq

/-- The config struct of src/main.go. Field names as in Go; the Go struct
carries only scorify `key:` tags, which encoding/json does not read. -/
structure Schema where
  Server : String
  Port : Int
  Record : String
  Domain : String
  ExpectedOutput : String
deriving DecidableEq

/-- Go zero value of `Schema`, the start state of json.Unmarshal. -/
def jsonZero : Schema :=
  { Server := "", Port := 0, Record := "", Domain := "", ExpectedOutput := "" }

/-- encoding/json key matching for a struct with no json tags: a key matches a
field iff equal up to ASCII case (exact match is a special case). Compared on
the character lists with characters lowered. -/
def fieldKeyEq (k fieldName : String) : Bool :=
  k.data.map Char.toLower == fieldName.data.map Char.toLower

/-- One step of json.Unmarshal into `Schema`: assign one object field.
Unknown keys are ignored; a wrong JSON type is an error, as in Go. -/
def setField (s : Schema) (kv : String × JVal) : Except String Schema :=
  if fieldKeyEq kv.1 "Server" then
    match kv.2 with
    | .str v => .ok { s with Server := v }
    | .num _ => .error "json: cannot unmarshal number into field Server"
  else if fieldKeyEq kv.1 "Port" then
    match kv.2 with
    | .num v => .ok { s with Port := v }
    | .str _ => .error "json: cannot unmarshal string into field Port"
  else if fieldKeyEq kv.1 "Record" then
    match kv.2 with
    | .str v => .ok { s with Record := v }
    | .num _ => .error "json: cannot unmarshal number into field Record"
  else if fieldKeyEq kv.1 "Domain" then
    match kv.2 with
    | .str v => .ok { s with Domain := v }
    | .num _ => .error "json: cannot unmarshal number into field Domain"
  else if fieldKeyEq kv.1 "ExpectedOutput" then
    match kv.2 with
    | .str v => .ok { s with ExpectedOutput := v }
    | .num _ => .error "json: cannot unmarshal number into field ExpectedOutput"
  else .ok s

/-- json.Unmarshal of a JSON object (ordered field list) into `Schema`:
start from the zero value and assign fields in order (later duplicates win). -/
def jsonUnmarshal (fields : List (String × JVal)) : Except String Schema :=
  fields.foldlM setField jsonZero

/-- A config object written under the five keys the scorify schema decoder
reads, each key optionally present, with its documented JSON type. -/
structure ConfigObj where
  dns_server : Option String
  port : Option Int
  record : Option String
  domain : Option String
  expected_output : Option String
deriving DecidableEq

/-- Render one optional config key as JSON object fields. -/
def optField (k : String) (f : α → JVal) : Option α → List (String × JVal)
  | none => []
  | some v => [(k, f v)]

/-- Render a `ConfigObj` as the field list of its JSON object. -/
def toFields (o : ConfigObj) : List (String × JVal) :=
  optField "dns_server" JVal.str o.dns_server ++
  optField "port" JVal.num o.port ++
  optField "record" JVal.str o.record ++
  optField "domain" JVal.str o.domain ++
  optField "expected_output" JVal.str o.expected_output

/-- Modelled from the spec: the decoder of the external github.com/scorify/schema
package (not part of this repository), as the `key:` and `default:` tags of
`Schema` and the interface table of the spec describe it: each struct field is
read from its tagged key (`dns_server`, `port`, `record`, `domain`,
`expected_output`); an absent `port` defaults to 53 and an absent `record`
defaults to "A"; the other fields default to the empty string. -/
def schemaUnmarshal (o : ConfigObj) : Schema :=
  { Server := o.dns_server.getD ""
    Port := o.port.getD 53
    Record := o.record.getD "A"
    Domain := o.domain.getD ""
    ExpectedOutput := o.expected_output.getD "" }

/-- The fixed record-type enum of src/main.go. -/
def recordEnum : List String := ["A", "AAAA", "CNAME", "MX", "NS", "PTR", "TXT"]

/-- `Validate` of src/main.go: decode with the scorify schema decoder, then
check each field constraint in order. -/
def Validate (o : ConfigObj) : Except String Unit :=
  let conf := schemaUnmarshal o
  if conf.Server = "" then
    .error ("server is required; got \"" ++ conf.Server ++ "\"")
  else if conf.Port = 0 then
    .error ("port is required; got " ++ toString conf.Port)
  else if conf.Port < 1 ∨ conf.Port > 65535 then
    .error ("port must be between 1 and 65535; got " ++ toString conf.Port)
  else if conf.Record = "" then
    .error ("record is required; got \"" ++ conf.Record ++ "\"")
  else if conf.Record ∉ recordEnum then
    .error ("record must be one of A, AAAA, CNAME, MX, NS, PTR, TXT; got \"" ++
      conf.Record ++ "\"")
  else if conf.Domain = "" then
    .error ("domain is required; got \"" ++ conf.Domain ++ "\"")
  else if conf.ExpectedOutput = "" then
    .error ("expected_output is required; got \"" ++ conf.ExpectedOutput ++ "\"")
  else .ok ()

/-- The context passed to `Run`: it carries at most an absolute deadline. -/
structure Ctx where
  deadline : Option Nat
deriving DecidableEq

/-- A connection opened by the dial override: the network the resolution layer
chose, the address actually dialed, and the deadline bounding the attempt. -/
structure Conn where
  network : String
  addr : String
  deadline : Nat
deriving DecidableEq

/-- The dial override built inside `Run`: fail when the context has no
deadline; otherwise dial `connStr` (ignoring the address the resolution layer
chose), bounded by the deadline taken from the context. -/
def dialFn (connStr : String) (ctx : Ctx) (network address : String) :
    Except String Conn :=
  match ctx.deadline with
  | none => .error "deadline not set"
  | some d => .ok { network := network, addr := connStr, deadline := d }

/-- An IP answer; `text` models the result of `ip.String()`. -/
structure IPAddr where
  text : String
deriving DecidableEq

/-- An MX answer record: exchange host and preference value. -/
structure MXRec where
  Host : String
  Pref : Nat
deriving DecidableEq

/-- An NS answer record: name-server host. -/
structure NSRec where
  Host : String
deriving DecidableEq

/-- The DNS data behind the resolver: raw answers per lookup kind, plus the
network and address the resolution layer itself would pass to the dial step. -/
structure DnsAnswers where
  sysNetwork : String
  sysAddr : String
  ip : String → String → Except String (List IPAddr)
  cname : String → Except String String
  mx : String → Except String (List MXRec)
  ns : String → Except String (List NSRec)
  ptrs : String → Except String (List String)
  txt : String → Except String (List String)

/-- One lookup of the resolution layer: open one connection through the dial
override; when the dial fails no connection exists and the lookup fails with
the dial error; when it succeeds the answers are consulted. -/
def lookupVia (dial : Ctx → String → String → Except String Conn)
    (ans : DnsAnswers) (ctx : Ctx) (answer : Except String α) :
    Except String α × List Conn :=
  match dial ctx ans.sysNetwork ans.sysAddr with
  | .error e => (.error e, [])
  | .ok c => (answer, [c])

/-- One switch case of `Run`: propagate a lookup error as the result of the
whole call (`if err != nil return err`), else normalize the answers into the
`addresses` string list. -/
def branchResult (f : α → List String) :
    Except String α × List Conn → Except String (List String) × List Conn
  | (.error e, cs) => (.error e, cs)
  | (.ok x, cs) => (.ok (f x), cs)

/-- The record-type dispatch of `Run`: compose connStr, build the dial
override, switch on the record type to one lookup, and normalize the answers
to the `addresses` string list exactly as src/main.go does. -/
def lookupPhase (ans : DnsAnswers) (ctx : Ctx) (s : Schema) :
    Except String (List String) × List Conn :=
  let connStr := s.Server ++ ":" ++ toString s.Port
  let dial := dialFn connStr
  if s.Record = "A" then
    branchResult (fun ips => ips.map IPAddr.text)
      (lookupVia dial ans ctx (ans.ip "ip4" s.Domain))
  else if s.Record = "AAAA" then
    branchResult (fun ips => ips.map IPAddr.text)
      (lookupVia dial ans ctx (ans.ip "ip6" s.Domain))
  else if s.Record = "CNAME" then
    branchResult (fun cname => [cname])
      (lookupVia dial ans ctx (ans.cname s.Domain))
  else if s.Record = "MX" then
    branchResult (fun mxs => mxs.map MXRec.Host)
      (lookupVia dial ans ctx (ans.mx s.Domain))
  else if s.Record = "NS" then
    branchResult (fun nss => nss.map NSRec.Host)
      (lookupVia dial ans ctx (ans.ns s.Domain))
  else if s.Record = "PTR" then
    branchResult (fun ptrList => ptrList)
      (lookupVia dial ans ctx (ans.ptrs s.Domain))
  else if s.Record = "TXT" then
    branchResult (fun txts => txts)
      (lookupVia dial ans ctx (ans.txt s.Domain))
  else (.error ("unsupported record type: " ++ s.Record), [])

/-- The scanning loop of `Run`: true iff some element equals the expected
output, stopping at the first match. -/
def scanFor (expected : String) : List String → Bool
  | [] => false
  | a :: rest => a == expected || scanFor expected rest

/-- The match-failure message of `Run`: names the expected value and joins all
observed values with a comma. -/
def notFoundMsg (expected : String) (addresses : List String) : String :=
  "expected out \"" ++ expected ++ "\" not found in [" ++
    String.intercalate ", " addresses ++ "]"

/-- The final loop of `Run`: nil on the first address equal to the expected
output, else the match-failure error. -/
def matchLoop (expected : String) (addresses : List String) :
    Except String Unit :=
  if scanFor expected addresses then .ok ()
  else .error (notFoundMsg expected addresses)

/-- The body of `Run` after the config is decoded: run the record dispatch,
propagate its error, else scan the addresses for the expected output. -/
def runWith (ans : DnsAnswers) (ctx : Ctx) (s : Schema) :
    Except String Unit × List Conn :=
  match lookupPhase ans ctx s with
  | (.error e, cs) => (.error e, cs)
  | (.ok addresses, cs) => (matchLoop s.ExpectedOutput addresses, cs)

/-- `Run` of src/main.go over the network model: decode the config with
json.Unmarshal, run the record dispatch, then scan for the expected output.
The second component is the list of connections the dial override opened. -/
def Run (ans : DnsAnswers) (ctx : Ctx) (fields : List (String × JVal)) :
    Except String Unit × List Conn :=
  match jsonUnmarshal fields with
  | .error e => (.error e, [])
  | .ok s => runWith ans ctx s

/-! ## Concrete fixtures -/

/-- A fixed network model used by concrete evaluations: every lookup kind
answers, and the resolution layer would have picked its own address. -/
def ansFix : DnsAnswers :=
  { sysNetwork := "udp"
    sysAddr := "127.0.0.53:53"
    ip := fun _ _ => Except.ok [{ text := "93.184.216.34" }]
    cname := fun _ => Except.ok "example.org."
    mx := fun _ => Except.ok [{ Host := "mail.example.com.", Pref := 10 }]
    ns := fun _ => Except.ok [{ Host := "ns1.example.com." }]
    ptrs := fun _ => Except.ok ["host.example.com."]
    txt := fun _ => Except.ok ["v=spf1 -all"] }

/-- A config whose keys are spelled as the Go field names, so that
json.Unmarshal fills every field. -/
def fieldsDirect : List (String × JVal) :=
  [("Server", JVal.str "1.1.1.1"), ("Port", JVal.num 53),
   ("Record", JVal.str "A"), ("Domain", JVal.str "example.com"),
   ("ExpectedOutput", JVal.str "93.184.216.34")]

/-- The schema json.Unmarshal reads from `fieldsDirect`. -/
def sDirect : Schema :=
  { Server := "1.1.1.1", Port := 53, Record := "A", Domain := "example.com",
    ExpectedOutput := "93.184.216.34" }

/-- A config whose record key holds a value outside the enum. -/
def fieldsFoo : List (String × JVal) := [("record", JVal.str "FOO")]

/-- A config holding only a supported record key. -/
def fieldsRecordA : List (String × JVal) := [("record", JVal.str "A")]

/-- A config under the documented keys that omits the port, which the schema
decoder defaults to 53. -/
def oDefaulted : ConfigObj :=
  { dns_server := some "1.1.1.1", port := none, record := some "A",
    domain := some "example.com", expected_output := some "93.184.216.34" }

/-- A config under the documented keys that omits the record, which the
schema decoder defaults to A. -/
def oNoRecord : ConfigObj :=
  { dns_server := some "1.1.1.1", port := some 53, record := none,
    domain := some "example.com", expected_output := some "93.184.216.34" }

/-! ## Helper lemmas -/

/-- The scanning loop finds a match iff the expected value is in the list. -/
theorem scanFor_eq_true_iff (expected : String) (l : List String) :
    scanFor expected l = true ↔ expected ∈ l := by
  induction l with
  | nil => simp [scanFor]
  | cons a rest ih =>
    simp [scanFor, ih, Bool.or_eq_true, beq_iff_eq]
    constructor
    · rintro (h | h)
      · exact Or.inl h.symm
      · exact Or.inr h
    · rintro (h | h)
      · exact Or.inl h.symm
      · exact Or.inr h

/-- The match loop succeeds iff the expected value is in the address list. -/
theorem matchLoop_ok_iff (expected : String) (l : List String) :
    matchLoop expected l = Except.ok () ↔ expected ∈ l := by
  unfold matchLoop
  by_cases h : scanFor expected l = true
  · simp [h, (scanFor_eq_true_iff expected l).mp h]
  · have hm : expected ∉ l := fun hmem => h ((scanFor_eq_true_iff expected l).mpr hmem)
    simp [h, hm]

/-- When no address matches, the match loop yields the diagnostic error. -/
theorem matchLoop_not_found (expected : String) (l : List String)
    (h : expected ∉ l) :
    matchLoop expected l = Except.error (notFoundMsg expected l) := by
  unfold matchLoop
  have hs : scanFor expected l ≠ true := fun hsc =>
    h ((scanFor_eq_true_iff expected l).mp hsc)
  simp [hs]

/-- json.Unmarshal of a config written under the five schema keys: the keys
dns_server and expected_output match no field of the untagged struct, while
port, record and domain match their fields up to case; absent keys leave the
Go zero values. -/
theorem jsonUnmarshal_toFields (o : ConfigObj) :
    jsonUnmarshal (toFields o) =
      Except.ok { Server := "", Port := o.port.getD 0, Record := o.record.getD "",
                  Domain := o.domain.getD "", ExpectedOutput := "" } := by
  obtain ⟨ds, po, re, dm, eo⟩ := o
  cases ds <;> cases po <;> cases re <;> cases dm <;> cases eo <;> rfl

/-- `Validate` succeeds iff every field constraint holds of the decoded
config. -/
theorem validate_ok_characterization (o : ConfigObj) :
    Validate o = Except.ok () ↔
      ((schemaUnmarshal o).Server ≠ "" ∧
       1 ≤ (schemaUnmarshal o).Port ∧ (schemaUnmarshal o).Port ≤ 65535 ∧
       (schemaUnmarshal o).Record ∈ recordEnum ∧
       (schemaUnmarshal o).Domain ≠ "" ∧
       (schemaUnmarshal o).ExpectedOutput ≠ "") := by
  unfold Validate
  simp only []
  split_ifs with h1 h2 h3 h4 h5 h6 h7
  · simp_all
  · simp_all
  · simp only [reduceCtorEq, false_iff, not_and]
    intro _ hp1 hp2
    omega
  · simp_all [recordEnum]
  · simp_all
  · simp_all
  · simp only [true_iff]
    push_neg at h3
    exact ⟨h1, h3.1, h3.2, h5, h6, h7⟩
  · simp only [reduceCtorEq, false_iff]
    intro hc
    exact h5 hc.2.2.2.1

/-- With a deadline present, a lookup opens exactly the connection the dial
override builds and yields the answers. -/
theorem lookupVia_some (cstr : String) (ans : DnsAnswers) (d : Nat)
    (answer : Except String α) :
    lookupVia (dialFn cstr) ans ⟨some d⟩ answer =
      (answer, [{ network := ans.sysNetwork, addr := cstr, deadline := d }]) := rfl

/-- With no deadline, a lookup fails with the dial error and opens nothing. -/
theorem lookupVia_none (cstr : String) (ans : DnsAnswers)
    (answer : Except String α) :
    lookupVia (dialFn cstr) ans ⟨none⟩ answer =
      (Except.error "deadline not set", []) := rfl

/-- Normalization never changes the connection list. -/
theorem branchResult_snd (f : α → List String)
    (p : Except String α × List Conn) : (branchResult f p).2 = p.2 := by
  obtain ⟨a, cs⟩ := p
  cases a <;> rfl

/-- Normalization maps a successful lookup through `f`. -/
theorem branchResult_ok (f : α → List String) (x : α) (cs : List Conn) :
    branchResult f (Except.ok x, cs) = (Except.ok (f x), cs) := rfl

/-- Error propagation through a switch case. -/
theorem branchResult_error (f : α → List String) (e : String) (cs : List Conn) :
    branchResult f (Except.error e, cs) = (Except.error e, cs) := rfl

/-- The result component of a switch case depends only on the lookup result,
not on the connection list. -/
theorem branchResult_fst (f : α → List String) (a : Except String α)
    (cs cs2 : List Conn) :
    (branchResult f (a, cs)).1 = (branchResult f (a, cs2)).1 := by
  cases a <;> rfl

/-- With a supported record type and no deadline on the context, the dispatch
fails with the dial error and opens no connection. -/
theorem lookupPhase_no_deadline (ans : DnsAnswers) (s : Schema)
    (h : s.Record ∈ recordEnum) :
    lookupPhase ans ⟨none⟩ s = (Except.error "deadline not set", []) := by
  simp only [recordEnum, List.mem_cons, List.not_mem_nil, or_false] at h
  unfold lookupPhase
  rcases h with h | h | h | h | h | h | h <;>
    simp [h, lookupVia_none, branchResult_error]

/-- Every connection the dispatch opens goes to the composed server:port
address and is bounded by the deadline of the context. -/
theorem lookupPhase_conns (ans : DnsAnswers) (ctx : Ctx) (s : Schema)
    (c : Conn) (hc : c ∈ (lookupPhase ans ctx s).2) :
    c.addr = s.Server ++ ":" ++ toString s.Port ∧
    ctx.deadline = some c.deadline := by
  obtain ⟨dl⟩ := ctx
  unfold lookupPhase at hc
  simp only [] at hc
  cases dl with
  | none =>
    split_ifs at hc <;>
      simp [lookupVia_none, branchResult_error] at hc
  | some d =>
    split_ifs at hc <;>
      simp only [lookupVia_some, branchResult_snd, List.mem_singleton,
        List.not_mem_nil] at hc <;>
      simp [hc]

/-- An unsupported record type makes the dispatch fail with the naming error,
with no lookup and no connection. -/
theorem lookupPhase_unsupported (ans : DnsAnswers) (ctx : Ctx) (s : Schema)
    (h : s.Record ∉ recordEnum) :
    lookupPhase ans ctx s =
      (Except.error ("unsupported record type: " ++ s.Record), []) := by
  simp only [recordEnum, List.mem_cons, List.not_mem_nil, or_false,
    not_or] at h
  obtain ⟨hA, hAAAA, hCNAME, hMX, hNS, hPTR, hTXT⟩ := h
  unfold lookupPhase
  simp [hA, hAAAA, hCNAME, hMX, hNS, hPTR, hTXT]

/-- A successful MX lookup with a deadline: the dispatch yields the exchange
hosts in order and one connection. -/
theorem lookupPhase_mx (ans : DnsAnswers) (d : Nat) (s : Schema)
    (h : s.Record = "MX") (mxs : List MXRec)
    (ha : ans.mx s.Domain = Except.ok mxs) :
    lookupPhase ans ⟨some d⟩ s =
      (Except.ok (mxs.map MXRec.Host),
       [{ network := ans.sysNetwork, addr := s.Server ++ ":" ++ toString s.Port,
          deadline := d }]) := by
  unfold lookupPhase
  simp [h, lookupVia_some, ha, branchResult_ok]

/-- A successful NS lookup with a deadline: the dispatch yields the server
hosts in order and one connection. -/
theorem lookupPhase_ns (ans : DnsAnswers) (d : Nat) (s : Schema)
    (h : s.Record = "NS") (nss : List NSRec)
    (ha : ans.ns s.Domain = Except.ok nss) :
    lookupPhase ans ⟨some d⟩ s =
      (Except.ok (nss.map NSRec.Host),
       [{ network := ans.sysNetwork, addr := s.Server ++ ":" ++ toString s.Port,
          deadline := d }]) := by
  unfold lookupPhase
  simp [h, lookupVia_some, ha, branchResult_ok]

/-- A successful CNAME lookup with a deadline: the dispatch yields the
one-element list of the canonical name. -/
theorem lookupPhase_cname (ans : DnsAnswers) (d : Nat) (s : Schema)
    (h : s.Record = "CNAME") (cn : String)
    (ha : ans.cname s.Domain = Except.ok cn) :
    lookupPhase ans ⟨some d⟩ s =
      (Except.ok [cn],
       [{ network := ans.sysNetwork, addr := s.Server ++ ":" ++ toString s.Port,
          deadline := d }]) := by
  unfold lookupPhase
  simp [h, lookupVia_some, ha, branchResult_ok]

/-- A successful PTR lookup with a deadline: the dispatch yields the raw
returned values. -/
theorem lookupPhase_ptr (ans : DnsAnswers) (d : Nat) (s : Schema)
    (h : s.Record = "PTR") (vs : List String)
    (ha : ans.ptrs s.Domain = Except.ok vs) :
    lookupPhase ans ⟨some d⟩ s =
      (Except.ok vs,
       [{ network := ans.sysNetwork, addr := s.Server ++ ":" ++ toString s.Port,
          deadline := d }]) := by
  unfold lookupPhase
  simp [h, lookupVia_some, ha, branchResult_ok]

/-- A successful TXT lookup with a deadline: the dispatch yields the raw
returned values. -/
theorem lookupPhase_txt (ans : DnsAnswers) (d : Nat) (s : Schema)
    (h : s.Record = "TXT") (vs : List String)
    (ha : ans.txt s.Domain = Except.ok vs) :
    lookupPhase ans ⟨some d⟩ s =
      (Except.ok vs,
       [{ network := ans.sysNetwork, addr := s.Server ++ ":" ++ toString s.Port,
          deadline := d }]) := by
  unfold lookupPhase
  simp [h, lookupVia_some, ha, branchResult_ok]

/-- The result component of the dispatch does not depend on the deadline
value, only on its presence. -/
theorem lookupPhase_fst_deadline_irrelevant (ans : DnsAnswers)
    (d1 d2 : Nat) (s : Schema) :
    (lookupPhase ans ⟨some d1⟩ s).1 = (lookupPhase ans ⟨some d2⟩ s).1 := by
  unfold lookupPhase
  simp only []
  split_ifs <;>
    simp only [lookupVia_some] <;>
    first
      | rfl
      | apply branchResult_fst

/-- A config that json.Unmarshal decodes to `s` makes `Run` behave as its
body on `s`. -/
theorem run_eq_runWith (ans : DnsAnswers) (ctx : Ctx)
    (fields : List (String × JVal)) (s : Schema)
    (hj : jsonUnmarshal fields = Except.ok s) :
    Run ans ctx fields = runWith ans ctx s := by
  unfold Run
  rw [hj]

/-- A successful dispatch hands the addresses to the match loop. -/
theorem runWith_ok (ans : DnsAnswers) (ctx : Ctx) (s : Schema)
    (addrs : List String) (cs : List Conn)
    (hl : lookupPhase ans ctx s = (Except.ok addrs, cs)) :
    runWith ans ctx s = (matchLoop s.ExpectedOutput addrs, cs) := by
  unfold runWith
  rw [hl]

/-- A failed dispatch is the result of the whole call. -/
theorem runWith_error (ans : DnsAnswers) (ctx : Ctx) (s : Schema)
    (e : String) (cs : List Conn)
    (hl : lookupPhase ans ctx s = (Except.error e, cs)) :
    runWith ans ctx s = (Except.error e, cs) := by
  unfold runWith
  rw [hl]

/-! ## Claim theorems -/

/-- C1: for every config and every successfully completed lookup, Run returns
nil iff some element of the normalized result sequence is exactly
string-equal to the expected output, and when no element matches Run returns
the error naming the expected value and joining all observed values. -/
theorem run_match_semantics (ans : DnsAnswers) (ctx : Ctx)
    (fields : List (String × JVal)) (s : Schema) (addrs : List String)
    (cs : List Conn) (hj : jsonUnmarshal fields = Except.ok s)
    (hl : lookupPhase ans ctx s = (Except.ok addrs, cs)) :
    ((Run ans ctx fields).1 = Except.ok () ↔ s.ExpectedOutput ∈ addrs) ∧
    (s.ExpectedOutput ∉ addrs →
      (Run ans ctx fields).1 =
        Except.error (notFoundMsg s.ExpectedOutput addrs)) := by
  rw [run_eq_runWith ans ctx fields s hj, runWith_ok ans ctx s addrs cs hl]
  constructor
  · simpa using matchLoop_ok_iff s.ExpectedOutput addrs
  · intro hni
    simpa using matchLoop_not_found s.ExpectedOutput addrs hni

/-- C1 witness: a concrete run whose single A answer equals the expected
output succeeds. -/
theorem run_match_semantics_witness :
    (Run ansFix ⟨some 5⟩ fieldsDirect).1 = Except.ok () :=
  ((run_match_semantics ansFix ⟨some 5⟩ fieldsDirect sDirect
      ["93.184.216.34"]
      [{ network := "udp", addr := "1.1.1.1:53", deadline := 5 }]
      rfl rfl).1).mpr (by simp [sDirect])

/-- C2 counterexample: a config whose record value FOO is unsupported makes
Run fail with the unsupported-record error even when the context carries no
deadline, so Run does not fail with the deadline-missing error on every
config. -/
theorem run_no_deadline_counterexample :
    (Run ansFix ⟨none⟩ fieldsFoo).1 =
      Except.error ("unsupported record type: FOO") ∧
    (Run ansFix ⟨none⟩ fieldsFoo).1 ≠ Except.error "deadline not set" := by
  constructor
  · rfl
  · have h : (Run ansFix ⟨none⟩ fieldsFoo).1 =
        Except.error ("unsupported record type: FOO") := rfl
    rw [h]
    simp

/-- C2 amended: for every config that json.Unmarshal parses and whose parsed
record is one of the seven supported types, a context without deadline makes
Run fail with the deadline-missing error, with no connection opened. -/
theorem run_no_deadline (ans : DnsAnswers) (fields : List (String × JVal))
    (s : Schema) (hj : jsonUnmarshal fields = Except.ok s)
    (hr : s.Record ∈ recordEnum) :
    Run ans ⟨none⟩ fields = (Except.error "deadline not set", []) := by
  rw [run_eq_runWith ans ⟨none⟩ fields s hj]
  exact runWith_error ans ⟨none⟩ s "deadline not set" []
    (lookupPhase_no_deadline ans s hr)

/-- C2 witness: a concrete no-deadline run over a supported record fails with
the deadline error and opens no connection. -/
theorem run_no_deadline_witness :
    Run ansFix ⟨none⟩ fieldsRecordA = (Except.error "deadline not set", []) :=
  run_no_deadline ansFix fieldsRecordA
    { Server := "", Port := 0, Record := "A", Domain := "", ExpectedOutput := "" }
    rfl (by simp [recordEnum])

/-- C3: Validate and Run do not decode the same config the same way: on every
config written under the five schema keys, json.Unmarshal leaves Server and
ExpectedOutput empty and an omitted port zero, so a config accepted by
Validate is never the config Run executes. -/
theorem validate_run_decode_mismatch (o : ConfigObj) :
    jsonUnmarshal (toFields o) =
      Except.ok { Server := "", Port := o.port.getD 0,
                  Record := o.record.getD "", Domain := o.domain.getD "",
                  ExpectedOutput := "" } ∧
    (Validate o = Except.ok () →
      jsonUnmarshal (toFields o) ≠ Except.ok (schemaUnmarshal o)) := by
  refine ⟨jsonUnmarshal_toFields o, ?_⟩
  intro hv hEq
  have hs := (validate_ok_characterization o).mp hv
  rw [jsonUnmarshal_toFields o] at hEq
  have hfields := Except.ok.inj hEq
  have hserver : ("" : String) = (schemaUnmarshal o).Server :=
    congrArg Schema.Server hfields
  exact hs.1 hserver.symm

/-- C3 witness: a concrete config Validate accepts decodes differently under
json.Unmarshal than under the schema decoder. -/
theorem validate_run_decode_mismatch_witness :
    Validate oDefaulted = Except.ok () ∧
    jsonUnmarshal (toFields oDefaulted) ≠
      Except.ok (schemaUnmarshal oDefaulted) :=
  ⟨rfl, (validate_run_decode_mismatch oDefaulted).2 rfl⟩

/-- C4: every connection opened during Run is dialed to the composed
server:port target (whatever address the resolution layer chose), bounded by
the absolute deadline extracted from the caller context. -/
theorem run_dial_target (ans : DnsAnswers) (ctx : Ctx)
    (fields : List (String × JVal)) (s : Schema)
    (hj : jsonUnmarshal fields = Except.ok s) (c : Conn)
    (hc : c ∈ (Run ans ctx fields).2) :
    c.addr = s.Server ++ ":" ++ toString s.Port ∧
    ctx.deadline = some c.deadline := by
  rw [run_eq_runWith ans ctx fields s hj] at hc
  rcases hlp : lookupPhase ans ctx s with ⟨res, cs⟩
  have hcs : c ∈ cs := by
    cases res with
    | error e => rw [runWith_error ans ctx s e cs hlp] at hc; exact hc
    | ok addrs => rw [runWith_ok ans ctx s addrs cs hlp] at hc; exact hc
  exact lookupPhase_conns ans ctx s c (by rw [hlp]; exact hcs)

/-- C4 witness: the connection of a concrete run goes to 1.1.1.1:53 with the
context deadline. -/
theorem run_dial_target_witness :
    ({ network := "udp", addr := "1.1.1.1:53", deadline := 7 } : Conn).addr =
      sDirect.Server ++ ":" ++ toString sDirect.Port ∧
    (Ctx.mk (some 7)).deadline =
      some ({ network := "udp", addr := "1.1.1.1:53", deadline := 7 } : Conn).deadline :=
  run_dial_target ansFix ⟨some 7⟩ fieldsDirect sDirect rfl
    { network := "udp", addr := "1.1.1.1:53", deadline := 7 } (by rw [show
      (Run ansFix ⟨some 7⟩ fieldsDirect).2 =
        [{ network := "udp", addr := "1.1.1.1:53", deadline := 7 }] from rfl]; simp)

/-- C5: Validate errors exactly when the decoded port is 0 or outside
1 to 65535, or the decoded record is outside the enum, or server, domain or
expected output is empty; it returns nil otherwise. -/
theorem validate_error_iff (o : ConfigObj) :
    (∃ e, Validate o = Except.error e) ↔
      ((schemaUnmarshal o).Port = 0 ∨ (schemaUnmarshal o).Port < 1 ∨
       (schemaUnmarshal o).Port > 65535 ∨
       (schemaUnmarshal o).Record ∉ recordEnum ∨
       (schemaUnmarshal o).Server = "" ∨ (schemaUnmarshal o).Domain = "" ∨
       (schemaUnmarshal o).ExpectedOutput = "") := by
  have hchar := validate_ok_characterization o
  constructor
  · rintro ⟨e, he⟩
    by_contra hno
    push_neg at hno
    obtain ⟨hp0, hp1, hp2, hrec, hsv, hdm, heo⟩ := hno
    have : Validate o = Except.ok () :=
      hchar.mpr ⟨hsv, by omega, by omega, hrec, hdm, heo⟩
    rw [this] at he
    exact Except.noConfusion he
  · intro hx
    rcases hv : Validate o with e | u
    · exact ⟨e, rfl⟩
    · cases u
      have hok := hchar.mp hv
      obtain ⟨hsv, hp1, hp2, hrec, hdm, heo⟩ := hok
      rcases hx with h | h | h | h | h | h | h
      · omega
      · omega
      · omega
      · exact absurd hrec h
      · exact absurd h hsv
      · exact absurd h hdm
      · exact absurd h heo

/-- C6: for MX and NS records a successful lookup normalizes to exactly one
string per returned record, in server order, holding the host portion only. -/
theorem mx_ns_host_normalization (ans : DnsAnswers) (d : Nat) (s : Schema) :
    (s.Record = "MX" → ∀ mxs, ans.mx s.Domain = Except.ok mxs →
      (lookupPhase ans ⟨some d⟩ s).1 = Except.ok (mxs.map MXRec.Host) ∧
      (mxs.map MXRec.Host).length = mxs.length) ∧
    (s.Record = "NS" → ∀ nss, ans.ns s.Domain = Except.ok nss →
      (lookupPhase ans ⟨some d⟩ s).1 = Except.ok (nss.map NSRec.Host) ∧
      (nss.map NSRec.Host).length = nss.length) := by
  constructor
  · intro h mxs ha
    rw [lookupPhase_mx ans d s h mxs ha]
    exact ⟨rfl, by simp⟩
  · intro h nss ha
    rw [lookupPhase_ns ans d s h nss ha]
    exact ⟨rfl, by simp⟩

/-- C6 witness: a concrete MX lookup yields exactly its exchange host, with
the preference value discarded. -/
theorem mx_ns_host_normalization_witness :
    (lookupPhase ansFix ⟨some 5⟩
        { Server := "1.1.1.1", Port := 53, Record := "MX",
          Domain := "example.com", ExpectedOutput := "mail.example.com." }).1 =
      Except.ok ["mail.example.com."] :=
  ((mx_ns_host_normalization ansFix 5
      { Server := "1.1.1.1", Port := 53, Record := "MX",
        Domain := "example.com", ExpectedOutput := "mail.example.com." }).1
    rfl [{ Host := "mail.example.com.", Pref := 10 }] rfl).1

/-- C7: for CNAME records a successful lookup yields exactly the one-element
list of the canonical name, and the match against the expected output is
exact string equality. -/
theorem cname_singleton_exact (ans : DnsAnswers) (d : Nat) (s : Schema)
    (h : s.Record = "CNAME") (cn : String)
    (ha : ans.cname s.Domain = Except.ok cn) :
    (lookupPhase ans ⟨some d⟩ s).1 = Except.ok [cn] ∧
    ([cn] : List String).length = 1 ∧
    (matchLoop s.ExpectedOutput [cn] = Except.ok () ↔
      cn = s.ExpectedOutput) := by
  refine ⟨by rw [lookupPhase_cname ans d s h cn ha], rfl, ?_⟩
  rw [matchLoop_ok_iff]
  simp [eq_comm]

/-- C7 witness: a concrete CNAME lookup yields its canonical name as a
one-element list. -/
theorem cname_singleton_exact_witness :
    (lookupPhase ansFix ⟨some 5⟩
        { Server := "1.1.1.1", Port := 53, Record := "CNAME",
          Domain := "www.example.com", ExpectedOutput := "example.org." }).1 =
      Except.ok ["example.org."] :=
  (cname_singleton_exact ansFix 5
      { Server := "1.1.1.1", Port := 53, Record := "CNAME",
        Domain := "www.example.com", ExpectedOutput := "example.org." }
    rfl "example.org." rfl).1

/-- C8: for PTR and TXT records a successful lookup yields the raw returned
value sequence, element for element, with no transformation. -/
theorem ptr_txt_raw_passthrough (ans : DnsAnswers) (d : Nat) (s : Schema) :
    (s.Record = "PTR" → ∀ vs, ans.ptrs s.Domain = Except.ok vs →
      (lookupPhase ans ⟨some d⟩ s).1 = Except.ok vs) ∧
    (s.Record = "TXT" → ∀ vs, ans.txt s.Domain = Except.ok vs →
      (lookupPhase ans ⟨some d⟩ s).1 = Except.ok vs) := by
  constructor
  · intro h vs ha
    rw [lookupPhase_ptr ans d s h vs ha]
  · intro h vs ha
    rw [lookupPhase_txt ans d s h vs ha]

/-- C8 witness: a concrete TXT lookup yields exactly the raw text values. -/
theorem ptr_txt_raw_passthrough_witness :
    (lookupPhase ansFix ⟨some 5⟩
        { Server := "1.1.1.1", Port := 53, Record := "TXT",
          Domain := "example.com", ExpectedOutput := "v=spf1 -all" }).1 =
      Except.ok ["v=spf1 -all"] :=
  (ptr_txt_raw_passthrough ansFix 5
      { Server := "1.1.1.1", Port := 53, Record := "TXT",
        Domain := "example.com", ExpectedOutput := "v=spf1 -all" }).2
    rfl ["v=spf1 -all"] rfl

/-- C9 counterexample: a config Validate accepts (record key omitted, so the
schema decoder defaults it to A) still reaches the unsupported-record branch
of Run, because json.Unmarshal leaves the record empty; the branch is not
unreachable under a valid config. -/
theorem valid_config_reaches_unsupported_branch :
    Validate oNoRecord = Except.ok () ∧
    (Run ansFix ⟨some 5⟩ (toFields oNoRecord)).1 =
      Except.error ("unsupported record type: ") := ⟨rfl, rfl⟩

/-- C9 amended: for every record outside the enum Run returns the
unsupported-record error naming that value with no lookup and no match
evaluation; the branch is unreachable for a valid config that states the
record key explicitly (while a valid config omitting the key reaches it). -/
theorem unsupported_record_defensive (ans : DnsAnswers) (ctx : Ctx)
    (fields : List (String × JVal)) (s : Schema)
    (hj : jsonUnmarshal fields = Except.ok s)
    (hr : s.Record ∉ recordEnum) :
    Run ans ctx fields =
      (Except.error ("unsupported record type: " ++ s.Record), []) ∧
    (∀ o : ConfigObj, Validate o = Except.ok () → o.record ≠ none →
      ∀ t, jsonUnmarshal (toFields o) = Except.ok t →
        t.Record ∈ recordEnum) := by
  constructor
  · rw [run_eq_runWith ans ctx fields s hj]
    exact runWith_error ans ctx s ("unsupported record type: " ++ s.Record) []
      (lookupPhase_unsupported ans ctx s hr)
  · intro o hv hrec t ht
    have hs := (validate_ok_characterization o).mp hv
    rw [jsonUnmarshal_toFields o] at ht
    have ht2 := Except.ok.inj ht
    have htr : t.Record = o.record.getD "" :=
      (congrArg Schema.Record ht2).symm
    cases hrc : o.record with
    | none => exact absurd hrc hrec
    | some r =>
      have hval : (schemaUnmarshal o).Record = r := by
        simp [schemaUnmarshal, hrc]
      have hmem := hs.2.2.2.1
      rw [hval] at hmem
      rw [htr, hrc]
      exact hmem

/-- C9 witness: a concrete run over the record value FOO returns the
unsupported-record error naming FOO, with no connection opened. -/
theorem unsupported_record_defensive_witness :
    Run ansFix ⟨some 5⟩ fieldsFoo =
      (Except.error ("unsupported record type: FOO"), []) :=
  (unsupported_record_defensive ansFix ⟨some 5⟩ fieldsFoo
      { Server := "", Port := 0, Record := "FOO", Domain := "",
        ExpectedOutput := "" }
    rfl (by simp [recordEnum])).1

/-- C10: with the identical config and the same resolver answers, two runs
with fresh deadlines yield the same pass or fail outcome: Run carries no
state and its outcome is a function of the config and the responses. -/
theorem run_idempotent_outcome (ans : DnsAnswers)
    (fields : List (String × JVal)) (d1 d2 : Nat) :
    (Run ans ⟨some d1⟩ fields).1 = (Run ans ⟨some d2⟩ fields).1 := by
  cases hj : jsonUnmarshal fields with
  | error e =>
    unfold Run
    rw [hj]
  | ok s =>
    rw [run_eq_runWith ans ⟨some d1⟩ fields s hj,
        run_eq_runWith ans ⟨some d2⟩ fields s hj]
    have h := lookupPhase_fst_deadline_irrelevant ans d1 d2 s
    rcases h1 : lookupPhase ans ⟨some d1⟩ s with ⟨r1, c1⟩
    rcases h2 : lookupPhase ans ⟨some d2⟩ s with ⟨r2, c2⟩
    rw [h1, h2] at h
    simp only [] at h
    subst h
    cases r1 with
    | error e =>
      rw [runWith_error ans ⟨some d1⟩ s e c1 h1,
          runWith_error ans ⟨some d2⟩ s e c2 h2]
    | ok addrs =>
      rw [runWith_ok ans ⟨some d1⟩ s addrs c1 h1,
          runWith_ok ans ⟨some d2⟩ s addrs c2 h2]

end Dns
